import Mathlib

/-!
# Easegress control plane and plugins: a shallow embedding

Embedded sources:

* `src/rest/admin.go`: the admin REST handlers (`createPlugin`, `updatePlugin`,
  `deletePlugin`, `createPipeline`, `updatePipeline`, `retrievePluginTypes`,
  `retrievePipelineTypes`).
* `pkg/plugin/ratelimiter/ratelimiter.go`: `New`, `Handle`, `Close`.
* `pkg/plugin/requestadaptor/requestadaptor.go`: `New`, `Handle`.

Go strings are modelled by `String`, `sort.Strings` by the sorted permutation
under the lexicographic order, pointers to shared runtime objects by indices
into an explicit store.
-/

/-! ## Definitions -/

namespace rest

/-- HTTP status codes used by the admin handlers (`net/http` constants). -/
def StatusOK : Nat := 200

/-- Modelled from the spec: `common.StrInSlice` is called by
`retrievePluginTypes` but package `common` is not among the sources; it reports
whether the string occurs in the slice (the "duplicate-free" listing of §4.1
relies on it). -/
def StrInSlice (s : String) (l : List String) : Bool :=
  l.contains s

/-- Go `sort.Strings`: sorts a slice of strings in increasing order. Equal
strings are indistinguishable, so the result is the unique ascending
permutation whatever the algorithm. Go compares strings byte by byte, `String`
character by character; on UTF-8 text the two orders agree. -/
def sortStrings (xs : List String) : List String :=
  xs.insertionSort (· ≤ ·)

/-- Response written by `retrievePluginTypes` (`pluginTypesRetrieveResponse`
through `WriteJson`, then `WriteHeader`). -/
structure pluginTypesRetrieveResponse where
  PluginTypes : List String
  status : Nat
  deriving DecidableEq, Repr

/-- Response written by `retrievePipelineTypes`. -/
structure pipelineTypesRetrieveResponse where
  PipelineTypes : List String
  status : Nat
  deriving DecidableEq, Repr

/-- Body of the `for _, typ := range plugins.GetAllTypes()` loop of
`retrievePluginTypes`: append `typ` unless it is already in the slice. -/
def pluginTypesLoop (acc : List String) (typ : String) : List String :=
  if !StrInSlice typ acc then acc ++ [typ] else acc

/-- Handler `adminServer.retrievePluginTypes` (admin.go 505-525); the argument
is the slice returned by `plugins.GetAllTypes()`. -/
def retrievePluginTypes (getAllTypes : List String) : pluginTypesRetrieveResponse :=
  let types := getAllTypes.foldl pluginTypesLoop []
  { PluginTypes := sortStrings types, status := StatusOK }

/-- Handler `adminServer.retrievePipelineTypes` (admin.go 527-540); the
argument is the slice returned by `pipelines.GetAllTypes()`. The zero-valued
`resp.PipelineTypes` is nil, to which the whole slice is appended. -/
def retrievePipelineTypes (getAllTypes : List String) : pipelineTypesRetrieveResponse :=
  let types := ([] : List String) ++ getAllTypes
  { PipelineTypes := sortStrings types, status := StatusOK }

def StatusBadRequest : Nat := 400
def StatusNotFound : Nat := 404
def StatusNotAcceptable : Nat := 406
def StatusConflict : Nat := 409
def StatusInternalServerError : Nat := 500

/-- Decoded request body of the create and update handlers
(`pluginCreationRequest`, `pluginUpdateRequest`, `pipelineCreationRequest`,
`pipelineUpdateRequest`): the handlers read `req.Type` and `req.Config`; the
latter is an `interface{}` and may be nil. -/
structure configRequest where
  typ : String
  Config : Option String
  deriving DecidableEq, Repr

/-- Calls a handler makes on `s.gateway.Model()`, in program order. -/
inductive ModelCall (C : Type) where
  | GetPlugin (name : String)
  | AddPlugin (typ : String) (conf : C)
  | UpdatePluginConfig (conf : C)
  | DismissPluginInstance (name : String)
  | DeletePlugin (name : String)
  | GetPipeline (name : String)
  | AddPipeline (typ : String) (conf : C)
  | UpdatePipelineConfig (conf : C)
  deriving DecidableEq, Repr

/-- What a handler leaves behind: the Model after its calls, the status code
written to the response (`rest.Error` or `w.WriteHeader`), and the calls made
on the Model. -/
structure Outcome (M C : Type) where
  model : M
  status : Nat
  calls : List (ModelCall C)

/-- Collaborators of the plugin handlers that live outside `admin.go`: the
request decoder, `encoding/json`, package `plugins`, `net/url` and the Model.
`M` is the Model's state, `C` a plugin configuration (`plugins.Config`), `P` a
registered plugin as `GetPlugin` returns it (`none` is Go's nil), `K` a plugin
constructor. A Model operation returns the Model it leaves and its error. -/
structure PluginAPI (M C P K : Type) where
  DecodeJsonPayload : String → Except String configRequest
  Marshal : Option String → Except String String
  GetConfig : String → Except String C
  Unmarshal : String → C → Except String C
  PluginName : C → String
  GetConstructor : String → Except String K
  QueryUnescape : String → Except String String
  GetPlugin : M → String → Option P
  PluginType : P → String
  AddPlugin : M → String → C → K → M × Option String
  UpdatePluginConfig : M → C → M × Option String
  DismissPluginInstance : M → String → M × Option String
  DeletePlugin : M → String → M × Option String

/-- Collaborators of the pipeline handlers: the request decoder,
`encoding/json`, `model.GetPipelineConfig` and the Model. -/
structure PipelineAPI (M C P : Type) where
  DecodeJsonPayload : String → Except String configRequest
  Marshal : Option String → Except String String
  GetPipelineConfig : String → Except String C
  Unmarshal : String → C → Except String C
  PipelineName : C → String
  GetPipeline : M → String → Option P
  PipelineType : P → String
  AddPipeline : M → String → C → M × Option String
  UpdatePipelineConfig : M → C → M × Option String

/-- Handler `adminServer.createPlugin` (admin.go 61-128). -/
def createPlugin {M C P K : Type} (e : PluginAPI M C P K) (m : M) (r : String) :
    Outcome M C :=
  match e.DecodeJsonPayload r with
  | .error _ => ⟨m, StatusBadRequest, []⟩
  | .ok req =>
    match req.Config with
    | none => ⟨m, StatusBadRequest, []⟩
    | some cfg =>
      match e.Marshal (some cfg) with
      | .error _ => ⟨m, StatusBadRequest, []⟩
      | .ok buff =>
        match e.GetConfig req.typ with
        | .error _ => ⟨m, StatusBadRequest, []⟩
        | .ok conf0 =>
          match e.Unmarshal buff conf0 with
          | .error _ => ⟨m, StatusBadRequest, []⟩
          | .ok conf =>
            let pluginName := e.PluginName conf
            match e.GetPlugin m pluginName with
            | some _ => ⟨m, StatusConflict, [.GetPlugin pluginName]⟩
            | none =>
              match e.GetConstructor req.typ with
              | .error _ => ⟨m, StatusBadRequest, [.GetPlugin pluginName]⟩
              | .ok constructor =>
                match e.AddPlugin m req.typ conf constructor with
                | (m1, some _) =>
                  ⟨m1, StatusBadRequest, [.GetPlugin pluginName, .AddPlugin req.typ conf]⟩
                | (m1, none) =>
                  ⟨m1, StatusOK, [.GetPlugin pluginName, .AddPlugin req.typ conf]⟩

/-- Handler `adminServer.updatePlugin` (admin.go 192-251). -/
def updatePlugin {M C P K : Type} (e : PluginAPI M C P K) (m : M) (r : String) :
    Outcome M C :=
  match e.DecodeJsonPayload r with
  | .error _ => ⟨m, StatusBadRequest, []⟩
  | .ok req =>
    match e.Marshal req.Config with
    | .error _ => ⟨m, StatusBadRequest, []⟩
    | .ok buff =>
      match e.GetConfig req.typ with
      | .error _ => ⟨m, StatusBadRequest, []⟩
      | .ok conf0 =>
        match e.Unmarshal buff conf0 with
        | .error _ => ⟨m, StatusBadRequest, []⟩
        | .ok conf =>
          let pluginName := e.PluginName conf
          match e.GetPlugin m pluginName with
          | none => ⟨m, StatusNotFound, [.GetPlugin pluginName]⟩
          | some plugin =>
            if e.PluginType plugin ≠ req.typ then
              ⟨m, StatusBadRequest, [.GetPlugin pluginName]⟩
            else
              match e.UpdatePluginConfig m conf with
              | (m1, some _) =>
                ⟨m1, StatusBadRequest, [.GetPlugin pluginName, .UpdatePluginConfig conf]⟩
              | (m1, none) =>
                ⟨m1, StatusOK, [.GetPlugin pluginName, .UpdatePluginConfig conf]⟩

/-- Handler `adminServer.deletePlugin` (admin.go 253-289); `param` is
`r.PathParam("pluginName")`. -/
def deletePlugin {M C P K : Type} (e : PluginAPI M C P K) (m : M) (param : String) :
    Outcome M C :=
  match e.QueryUnescape param with
  | .error _ => ⟨m, StatusBadRequest, []⟩
  | .ok pluginName =>
    match e.GetPlugin m pluginName with
    | none => ⟨m, StatusNotFound, [.GetPlugin pluginName]⟩
    | some _ =>
      match e.DismissPluginInstance m pluginName with
      | (m1, some _) =>
        ⟨m1, StatusInternalServerError,
          [.GetPlugin pluginName, .DismissPluginInstance pluginName]⟩
      | (m1, none) =>
        match e.DeletePlugin m1 pluginName with
        | (m2, some _) =>
          ⟨m2, StatusNotAcceptable,
            [.GetPlugin pluginName, .DismissPluginInstance pluginName,
              .DeletePlugin pluginName]⟩
        | (m2, none) =>
          ⟨m2, StatusOK,
            [.GetPlugin pluginName, .DismissPluginInstance pluginName,
              .DeletePlugin pluginName]⟩

/-- Handler `adminServer.createPipeline` (admin.go 291-351). -/
def createPipeline {M C P : Type} (e : PipelineAPI M C P) (m : M) (r : String) :
    Outcome M C :=
  match e.DecodeJsonPayload r with
  | .error _ => ⟨m, StatusBadRequest, []⟩
  | .ok req =>
    match req.Config with
    | none => ⟨m, StatusBadRequest, []⟩
    | some cfg =>
      match e.Marshal (some cfg) with
      | .error _ => ⟨m, StatusBadRequest, []⟩
      | .ok buff =>
        match e.GetPipelineConfig req.typ with
        | .error _ => ⟨m, StatusBadRequest, []⟩
        | .ok conf0 =>
          match e.Unmarshal buff conf0 with
          | .error _ => ⟨m, StatusBadRequest, []⟩
          | .ok conf =>
            let pipelineName := e.PipelineName conf
            match e.GetPipeline m pipelineName with
            | some _ => ⟨m, StatusConflict, [.GetPipeline pipelineName]⟩
            | none =>
              match e.AddPipeline m req.typ conf with
              | (m1, some _) =>
                ⟨m1, StatusBadRequest, [.GetPipeline pipelineName, .AddPipeline req.typ conf]⟩
              | (m1, none) =>
                ⟨m1, StatusOK, [.GetPipeline pipelineName, .AddPipeline req.typ conf]⟩

/-- Handler `adminServer.updatePipeline` (admin.go 415-474). -/
def updatePipeline {M C P : Type} (e : PipelineAPI M C P) (m : M) (r : String) :
    Outcome M C :=
  match e.DecodeJsonPayload r with
  | .error _ => ⟨m, StatusBadRequest, []⟩
  | .ok req =>
    match e.Marshal req.Config with
    | .error _ => ⟨m, StatusBadRequest, []⟩
    | .ok buff =>
      match e.GetPipelineConfig req.typ with
      | .error _ => ⟨m, StatusBadRequest, []⟩
      | .ok conf0 =>
        match e.Unmarshal buff conf0 with
        | .error _ => ⟨m, StatusBadRequest, []⟩
        | .ok conf =>
          let pipelineName := e.PipelineName conf
          match e.GetPipeline m pipelineName with
          | none => ⟨m, StatusNotFound, [.GetPipeline pipelineName]⟩
          | some pipeline =>
            if e.PipelineType pipeline ≠ req.typ then
              ⟨m, StatusBadRequest, [.GetPipeline pipelineName]⟩
            else
              match e.UpdatePipelineConfig m conf with
              | (m1, some _) =>
                ⟨m1, StatusBadRequest,
                  [.GetPipeline pipelineName, .UpdatePipelineConfig conf]⟩
              | (m1, none) =>
                ⟨m1, StatusOK, [.GetPipeline pipelineName, .UpdatePipelineConfig conf]⟩

end rest

namespace rest

/-- Modelled from the spec: an entry of the Registry, which §3 describes as
"a mapping from name to `{spec, instance}`"; package `model`, which holds it,
is not among the sources. `typ` and `conf` are the spec, `inst` is the state
of the running instance. -/
structure Entry (C I : Type) where
  typ : String
  conf : C
  inst : I

/-- Modelled from the spec: the plugin namespace of the Registry of §3, a
mapping from name to entry (package `model` is not among the sources). -/
structure Model (C I : Type) where
  plugins : List (String × Entry C I)

/-- Modelled from the spec: `Model.GetPlugin` (package `model` is not among the
sources), the `Get(name)` of §4.1, "instance or not-found". -/
def Model.GetPlugin {C I : Type} (m : Model C I) (name : String) : Option (Entry C I) :=
  m.plugins.lookup name

/-- Modelled from the spec: `Model.DismissPluginInstance` (package `model` is
not among the sources), the `Dismiss(name)` of §4.1, which "invokes the
instance's teardown operation (stops background resources)": the teardown of
the instance registered under `name` runs, the instance is left in the state
the teardown gives it, and the teardown's error is the call's error. Entries
are removed by `Delete` only. `teardown` is the instance's teardown, which may
fail. -/
def Model.DismissPluginInstance {C I : Type} (teardown : I → I × Option String)
    (m : Model C I) (name : String) : Model C I × Option String :=
  match m.GetPlugin name with
  | none => (m, some "plugin not found")
  | some en =>
    let torn := teardown en.inst
    ({ plugins := m.plugins.map
        (fun p => if p.1 = name then (p.1, { p.2 with inst := torn.1 }) else p) },
      torn.2)

/-- Plugin collaborators whose Model is the Registry of the spec: lookup and
dismissal are `Model.GetPlugin` and `Model.DismissPluginInstance`, everything
else is taken from `e`. -/
def PluginAPI.onModel {C I K : Type} (e : PluginAPI (Model C I) C (Entry C I) K)
    (teardown : I → I × Option String) : PluginAPI (Model C I) C (Entry C I) K :=
  { e with
    GetPlugin := Model.GetPlugin
    PluginType := fun en => en.typ
    DismissPluginInstance := Model.DismissPluginInstance teardown }

/-- Sample Model state for running the handlers on concrete requests: one
namespace of the registry as an association list from name to type. The real
Model (package `model`) is not among the sources; the handlers take its
operations as parameters and do not depend on this sample. -/
abbrev Registry := List (String × String)

/-- Sample `AddPlugin` / `AddPipeline`: fails on a name collision. -/
def Registry.Add (reg : Registry) (typ name : String) : Registry × Option String :=
  if (reg.lookup name).isSome then (reg, some "conflict") else ((name, typ) :: reg, none)

/-- Sample `UpdatePluginConfig` / `UpdatePipelineConfig`: the stored type is
kept. -/
def Registry.Update (reg : Registry) (name : String) : Registry × Option String :=
  if (reg.lookup name).isSome then (reg, none) else (reg, some "not found")

/-- Sample `DismissPluginInstance`: leaves the entry in place; the instance
named `stuck` fails to dismiss. -/
def Registry.Dismiss (reg : Registry) (name : String) : Registry × Option String :=
  if name = "stuck" then (reg, some "dismiss failed") else (reg, none)

/-- Sample `DeletePlugin`: removes the entry. -/
def Registry.Delete (reg : Registry) (name : String) : Registry × Option String :=
  if (reg.lookup name).isSome then (reg.filter (fun en => en.1 ≠ name), none)
  else (reg, some "not found")

/-- A concrete set of plugin collaborators over `Registry`: the request body is
the plugin's name, every request asks for type `RateLimiter`, a configuration
is identified with its name and a registered plugin with its type. -/
def registryPluginAPI : PluginAPI Registry String String Unit where
  DecodeJsonPayload r := if r = "" then .error "EOF" else .ok ⟨"RateLimiter", some r⟩
  Marshal c := match c with
    | none => .ok "null"
    | some v => .ok v
  GetConfig typ :=
    if typ = "RateLimiter" ∨ typ = "RequestAdaptor" then .ok "" else .error "unknown type"
  Unmarshal buff _ := .ok buff
  PluginName c := c
  GetConstructor _ := .ok ()
  QueryUnescape s := .ok s
  GetPlugin reg name := reg.lookup name
  PluginType p := p
  AddPlugin reg typ conf _ := reg.Add typ conf
  UpdatePluginConfig reg conf := reg.Update conf
  DismissPluginInstance reg name := reg.Dismiss name
  DeletePlugin reg name := reg.Delete name

/-- A concrete set of pipeline collaborators over `Registry`: every request
asks for type `LinearPipeline`. -/
def registryPipelineAPI : PipelineAPI Registry String String where
  DecodeJsonPayload r := if r = "" then .error "EOF" else .ok ⟨"LinearPipeline", some r⟩
  Marshal c := match c with
    | none => .ok "null"
    | some v => .ok v
  GetPipelineConfig typ :=
    if typ = "LinearPipeline" ∨ typ = "ParallelPipeline" then .ok "" else .error "unknown type"
  Unmarshal buff _ := .ok buff
  PipelineName c := c
  GetPipeline reg name := reg.lookup name
  PipelineType p := p
  AddPipeline reg typ conf := reg.Add typ conf
  UpdatePipelineConfig reg conf := reg.Update conf

/-- A concrete set of plugin collaborators over the `Model` of the spec; an
instance is its running flag. -/
def modelPluginAPI : PluginAPI (Model String Bool) String (Entry String Bool) Unit where
  DecodeJsonPayload r := if r = "" then .error "EOF" else .ok ⟨"RateLimiter", some r⟩
  Marshal c := match c with
    | none => .ok "null"
    | some v => .ok v
  GetConfig typ :=
    if typ = "RateLimiter" ∨ typ = "RequestAdaptor" then .ok "" else .error "unknown type"
  Unmarshal buff _ := .ok buff
  PluginName c := c
  GetConstructor _ := .ok ()
  QueryUnescape s := .ok s
  GetPlugin := Model.GetPlugin
  PluginType en := en.typ
  AddPlugin m typ conf _ := ({ plugins := (conf, ⟨typ, conf, true⟩) :: m.plugins }, none)
  UpdatePluginConfig m _ := (m, none)
  DismissPluginInstance := Model.DismissPluginInstance (fun _ => (false, none))
  DeletePlugin m name := ({ plugins := m.plugins.filter (fun p => p.1 ≠ name) }, none)

/-- A Model with the one running plugin `limiter`. -/
def sampleModel : Model String Bool :=
  { plugins := [("limiter", ⟨"RateLimiter", "limiter", true⟩)] }

/-- A teardown that fails and leaves the instance running. -/
def failingTeardown (running : Bool) : Bool × Option String :=
  (running, some "teardown failed")

end rest

/-- Calls made on the setters of the request (`r.SetMethod`, `r.SetPath`). -/
inductive RequestCall where
  | SetMethod (method : String)
  | SetPath (path : String)
  deriving DecidableEq, Repr

/-- Request context `context.HTTPContext` as far as the two plugins use it: the
request's method, path and header, the response's status code and body, the
tags added with `AddTag`, and the calls made on the request's setters, in
program order. -/
structure HTTPContext where
  method : String
  path : String
  header : List (String × String)
  statusCode : Nat
  body : String
  tags : List String
  setterCalls : List RequestCall
  deriving DecidableEq, Repr

/-- Method `r.SetMethod` of the context's request: writes the method. -/
def HTTPContext.SetMethod (ctx : HTTPContext) (method : String) : HTTPContext :=
  { ctx with method := method, setterCalls := ctx.setterCalls ++ [.SetMethod method] }

/-- Method `r.SetPath` of the context's request: writes the path. -/
def HTTPContext.SetPath (ctx : HTTPContext) (path : String) : HTTPContext :=
  { ctx with path := path, setterCalls := ctx.setterCalls ++ [.SetPath path] }

/-- Method `ctx.AddTag`: tags are appended. -/
def HTTPContext.AddTag (ctx : HTTPContext) (tag : String) : HTTPContext :=
  { ctx with tags := ctx.tags ++ [tag] }

/-- Method `ctx.Response().SetStatusCode`. -/
def HTTPContext.SetStatusCode (ctx : HTTPContext) (code : Nat) : HTTPContext :=
  { ctx with statusCode := code }

/-- A `GET /users` request on which nothing has been done yet. -/
def sampleRequest : HTTPContext :=
  { method := "GET", path := "/users", header := [], statusCode := 0, body := "", tags := [],
    setterCalls := [] }

/-- Applies `f` to the object stored at index `i`; a store without that index
is left as it is. -/
def updateAt {α : Type} : List α → Nat → (α → α) → List α
  | [], _, _ => []
  | x :: xs, 0, f => f x :: xs
  | x :: xs, i + 1, f => x :: updateAt xs i f

namespace ratelimiter

def Kind : String := "RateLimiter"

def resultTimeout : String := "timeout"

/-- Constant `http.StatusTooManyRequests`. -/
def StatusTooManyRequests : Nat := 429

/-- Configuration part of a `rate.Limiter` (`golang.org/x/time/rate`): what
`NewLimiter` and `SetLimit` write. `limit` is the `rate.Limit` in events per
second, here always converted from a `uint32`. -/
structure Limiter where
  limit : Nat
  burst : Nat
  deriving DecidableEq, Repr

/-- An `metrics.EWMA` of go-metrics: the events counted since the last tick
and the counts consumed by the ticks so far, of which the moving average is a
function. -/
structure EWMA where
  uncounted : Int
  ticked : List Int
  deriving DecidableEq, Repr

/-- Constructor `metrics.NewEWMA1()`: nothing counted, never ticked. -/
def NewEWMA1 : EWMA := ⟨0, []⟩

/-- Method `EWMA.Update(n)`: adds `n` uncounted events. -/
def EWMA.Update (a : EWMA) (n : Int) : EWMA :=
  { a with uncounted := a.uncounted + n }

/-- Method `EWMA.Tick()`: folds the uncounted events into the average. -/
def EWMA.Tick (a : EWMA) : EWMA :=
  { uncounted := 0, ticked := a.ticked ++ [a.uncounted] }

/-- State of a `chan struct{}` on which nothing is ever sent. -/
inductive Chan where
  | opened
  | closed
  deriving DecidableEq, Repr

/-- The goroutine started by `New`: every five seconds it ticks the
accumulator `rate1`, until the channel `done` is closed. -/
structure Ticker where
  rate1 : Nat
  done : Nat
  deriving DecidableEq, Repr

/-- The objects rate limiters point to: limiters, accumulators and channels,
each addressed by its index, and the ticking goroutines started so far. -/
structure World where
  limiters : List Limiter
  ewmas : List EWMA
  chans : List Chan
  tickers : List Ticker
  deriving DecidableEq, Repr

/-- Type `Spec` of the rate limiter; `FS` is `fallback.Spec`, `TPS` a `uint32`,
`timeout` the parsed duration in nanoseconds (nil until `New` parses it). -/
structure Spec (FS : Type) where
  TPS : Nat
  Timeout : String
  Fallback : Option FS
  timeout : Option Nat

/-- Type `RateLimiter`; `limiter`, `rate1` and `done` point into the `World`,
`F` is `fallback.Fallback`. -/
structure RateLimiter (FS F : Type) where
  spec : Spec FS
  fallback : Option F
  limiter : Nat
  rate1 : Nat
  done : Nat

/-- Collaborators outside `ratelimiter.go`: `time.ParseDuration`,
`fallback.New` and the effect of `(*Fallback).Fallback` on the context. -/
structure Deps (FS F : Type) where
  ParseDuration : String → Except String Nat
  fallbackNew : FS → F
  Fallback : F → HTTPContext → HTTPContext

/-- Function `New` (ratelimiter.go 68-107). -/
def New {FS F : Type} (d : Deps FS F) (spec : Spec FS) (prev : Option (RateLimiter FS F))
    (w : World) : RateLimiter FS F × World :=
  let spec : Spec FS :=
    if spec.Timeout ≠ "" then
      match d.ParseDuration spec.Timeout with
      | .error _ => spec
      | .ok timeout => { spec with timeout := some timeout }
    else spec
  let fb : Option F :=
    match spec.Fallback with
    | some fs => some (d.fallbackNew fs)
    | none => none
  match prev with
  | none =>
    let rl : RateLimiter FS F :=
      { spec := spec, fallback := fb, limiter := w.limiters.length,
        rate1 := w.ewmas.length, done := w.chans.length }
    (rl, { limiters := w.limiters ++ [⟨spec.TPS, 1⟩],
           ewmas := w.ewmas ++ [NewEWMA1],
           chans := w.chans ++ [Chan.opened],
           tickers := w.tickers ++ [⟨rl.rate1, rl.done⟩] })
  | some prev =>
    ({ spec := spec, fallback := fb, limiter := prev.limiter,
       rate1 := prev.rate1, done := prev.done },
     { w with limiters := updateAt w.limiters prev.limiter
                (fun l => { l with limit := spec.TPS }) })

/-- Method `RateLimiter.Handle` (ratelimiter.go 110-130). `wait` stands for
`rl.limiter.Wait(rlCtx)`: given the bound put on the wait (`rl.spec.timeout`,
nil for none) it yields the error of the wait, nil when the token is granted.
The deferred `rl.rate1.Update(1)` runs on both return paths. -/
def Handle {FS F : Type} (d : Deps FS F) (rl : RateLimiter FS F)
    (wait : Option Nat → Option String) (ctx : HTTPContext) (w : World) :
    String × HTTPContext × World :=
  let deferred : World := { w with ewmas := updateAt w.ewmas rl.rate1 (fun a => a.Update 1) }
  match wait rl.spec.timeout with
  | some _ =>
    let ctx := match rl.fallback with
      | some f => d.Fallback f ctx
      | none => ctx
    let ctx := ctx.SetStatusCode StatusTooManyRequests
    (resultTimeout, ctx, deferred)
  | none => ("", ctx, deferred)

/-- Go's run-time panics of `close`. -/
inductive Panic where
  | closeOfClosedChannel
  | closeOfNilChannel
  deriving DecidableEq, Repr

/-- Method `RateLimiter.Close` (ratelimiter.go 139-142): `close(rl.done)`.
Closing a closed channel panics and leaves it closed; the call never blocks. -/
def Close {FS F : Type} (rl : RateLimiter FS F) (w : World) : Except Panic World :=
  match w.chans[rl.done]? with
  | some Chan.opened => .ok { w with chans := updateAt w.chans rl.done (fun _ => Chan.closed) }
  | some Chan.closed => .error Panic.closeOfClosedChannel
  | none => .error Panic.closeOfNilChannel

/-- What happens to an accumulator between two constructions: a request counts
itself (`Handle`), or the ticker ticks. -/
inductive Activity where
  | Update (n : Int)
  | Tick
  deriving DecidableEq, Repr

/-- Effect of one activity on an accumulator. -/
def Activity.apply (a : EWMA) : Activity → EWMA
  | .Update n => a.Update n
  | .Tick => a.Tick

/-- Effect of activities on the accumulator stored at `ref`. -/
def runActivities (ref : Nat) (w : World) (acts : List Activity) : World :=
  { w with ewmas := updateAt w.ewmas ref (fun a => acts.foldl Activity.apply a) }

/-- Hot reloads `ri = New(si, r(i-1))`, each preceded by the activity on the
predecessor's accumulator since the previous construction; returns the
instances built and the world they leave. -/
def reloads {FS F : Type} (d : Deps FS F) :
    RateLimiter FS F → World → List (List Activity × Spec FS) →
      List (RateLimiter FS F) × World
  | _, w, [] => ([], w)
  | prev, w, (acts, s) :: rest =>
    let step := New d s (some prev) (runActivities prev.rate1 w acts)
    let tail := reloads d step.1 step.2 rest
    (step.1 :: tail.1, tail.2)

/-- The chain `r0 = New(s0, nil)`, `r1 = New(s1, r0)`, ..., `rn = New(sn, r(n-1))`
started in world `w`: returns `r0 :: r1 :: ... :: rn` and the final world. -/
def chain {FS F : Type} (d : Deps FS F) (s0 : Spec FS)
    (rest : List (List Activity × Spec FS)) (w : World) :
    List (RateLimiter FS F) × World :=
  let first := New d s0 none w
  let tail := reloads d first.1 first.2 rest
  (first.1 :: tail.1, tail.2)

/-- A world in which nothing has been allocated. -/
def World.empty : World := ⟨[], [], [], []⟩

/-- Sample collaborators: durations are not parsed, a fallback is its spec and
writes its body into the response. -/
def sampleDeps : Deps String String where
  ParseDuration _ := .error "unsupported"
  fallbackNew fs := fs
  Fallback f ctx := { ctx with body := f, statusCode := 200 }

/-- A spec with 10 tokens per second, no timeout and the fallback `busy`. -/
def sampleSpec : Spec String := ⟨10, "", some "busy", none⟩

end ratelimiter

namespace requestadaptor

def Kind : String := "RequestAdaptor"

/-- Type `Spec` of the request adaptor; `PS` is `pathAdaptorSpec`, `A` is
`httpheader.AdaptSpec`. -/
structure Spec (PS A : Type) where
  Method : String
  Path : Option PS
  Header : Option A

/-- Type `RequestAdaptor`; `PA` is `pathAdaptor`. -/
structure RequestAdaptor (PS A PA : Type) where
  spec : Spec PS A
  pathAdaptor : Option PA

/-- Collaborators outside `requestadaptor.go`: `newPathAdaptor`, the pure
`pathAdaptor.Adapt` and `HTTPHeader.Adapt`. -/
structure Deps (PS A PA : Type) where
  newPathAdaptor : PS → PA
  Adapt : PA → String → String
  headerAdapt : A → List (String × String) → List (String × String)

/-- Function `New` (requestadaptor.go 49-59). -/
def New {PS A PA : Type} (d : Deps PS A PA) (spec : Spec PS A) : RequestAdaptor PS A PA :=
  let pathAdaptor : Option PA :=
    match spec.Path with
    | some p => some (d.newPathAdaptor p)
    | none => none
  { spec := spec, pathAdaptor := pathAdaptor }

/-- The tag `fmt.Sprintf("requestAdaptor: method %s adapted to %s", ...)`. -/
def methodTag (method target : String) : String :=
  "requestAdaptor: method " ++ method ++ " adapted to " ++ target

/-- The tag `fmt.Sprintf("requestAdaptor: path %s adapted to %s", ...)`. -/
def pathTag (path adaptedPath : String) : String :=
  "requestAdaptor: path " ++ path ++ " adapted to " ++ adaptedPath

/-- Method `RequestAdaptor.Handle` (requestadaptor.go 62-84): returns the
result and the context it leaves. -/
def Handle {PS A PA : Type} (d : Deps PS A PA) (ra : RequestAdaptor PS A PA)
    (ctx : HTTPContext) : String × HTTPContext :=
  let method := ctx.method
  let path := ctx.path
  let header := ctx.header
  let ctx :=
    if ra.spec.Method ≠ "" ∧ ra.spec.Method ≠ method then
      (ctx.AddTag (methodTag method ra.spec.Method)).SetMethod ra.spec.Method
    else ctx
  let ctx :=
    match ra.pathAdaptor with
    | some pa =>
      let adaptedPath := d.Adapt pa path
      let ctx := if adaptedPath ≠ path then ctx.AddTag (pathTag path adaptedPath) else ctx
      ctx.SetPath adaptedPath
    | none => ctx
  let ctx :=
    match ra.spec.Header with
    | some hs => { ctx with header := d.headerAdapt hs header }
    | none => ctx
  ("", ctx)

/-- Sample collaborators: a path rule is a prefix to add, a header rule a
header to add. -/
def sampleDeps : Deps String (String × String) String where
  newPathAdaptor p := p
  Adapt pa path := pa ++ path
  headerAdapt hs header := header ++ [hs]

end requestadaptor

/-! ## Theorems -/

namespace rest

theorem strInSlice_iff (s : String) (l : List String) :
    StrInSlice s l = true ↔ s ∈ l := by
  simp [StrInSlice]

theorem pluginTypesLoop_mem (acc : List String) (typ t : String) :
    t ∈ pluginTypesLoop acc typ ↔ t ∈ acc ∨ t = typ := by
  unfold pluginTypesLoop
  by_cases h : typ ∈ acc
  · have hs : StrInSlice typ acc = true := (strInSlice_iff _ _).2 h
    simp only [hs, Bool.not_true, Bool.false_eq_true, if_false]
    constructor
    · exact Or.inl
    · rintro (h1 | h1)
      · exact h1
      · exact h1 ▸ h
  · have hs : StrInSlice typ acc = false := by
      cases hb : StrInSlice typ acc
      · rfl
      · exact absurd ((strInSlice_iff _ _).1 hb) h
    simp [hs]

theorem pluginTypesLoop_nodup (acc : List String) (typ : String) (h : acc.Nodup) :
    (pluginTypesLoop acc typ).Nodup := by
  unfold pluginTypesLoop
  by_cases hm : typ ∈ acc
  · have hs : StrInSlice typ acc = true := (strInSlice_iff _ _).2 hm
    simpa [hs] using h
  · have hs : StrInSlice typ acc = false := by
      cases hb : StrInSlice typ acc
      · rfl
      · exact absurd ((strInSlice_iff _ _).1 hb) hm
    simp only [hs, Bool.not_false, if_true]
    refine List.Nodup.append h (List.nodup_singleton _) ?_
    intro a ha hb
    rw [List.mem_singleton] at hb
    exact hm (hb ▸ ha)

theorem foldl_pluginTypesLoop_mem (l acc : List String) (t : String) :
    t ∈ l.foldl pluginTypesLoop acc ↔ t ∈ acc ∨ t ∈ l := by
  induction l generalizing acc with
  | nil => simp
  | cons x xs ih =>
    rw [List.foldl_cons, ih, pluginTypesLoop_mem, List.mem_cons]
    tauto

theorem foldl_pluginTypesLoop_nodup (l acc : List String) (h : acc.Nodup) :
    (l.foldl pluginTypesLoop acc).Nodup := by
  induction l generalizing acc with
  | nil => simpa using h
  | cons x xs ih =>
    rw [List.foldl_cons]
    exact ih _ (pluginTypesLoop_nodup acc x h)

theorem sortStrings_perm (xs : List String) : (sortStrings xs).Perm xs :=
  List.perm_insertionSort _ xs

theorem sortStrings_sorted (xs : List String) : List.Sorted (· ≤ ·) (sortStrings xs) :=
  List.sorted_insertionSort _ xs

theorem sortStrings_congr {xs ys : List String} (h : xs.Perm ys) :
    sortStrings xs = sortStrings ys :=
  List.eq_of_perm_of_sorted
    (((sortStrings_perm xs).trans h).trans (sortStrings_perm ys).symm)
    (sortStrings_sorted xs) (sortStrings_sorted ys)

/-- C5: for every slice returned by `plugins.GetAllTypes` (any order, repeats
allowed) the `PluginTypes` list written by `retrievePluginTypes` is ascending
(even strictly), has no identifier twice, holds exactly the identifiers of the
input, is the same for every permutation of the input, and is written with
status 200. -/
theorem retrievePluginTypes_sorted_nodup_complete (types : List String) :
    List.Sorted (· ≤ ·) (retrievePluginTypes types).PluginTypes
    ∧ List.Sorted (· < ·) (retrievePluginTypes types).PluginTypes
    ∧ (retrievePluginTypes types).PluginTypes.Nodup
    ∧ (∀ t, t ∈ (retrievePluginTypes types).PluginTypes ↔ t ∈ types)
    ∧ (∀ types2 : List String, types2.Perm types →
        retrievePluginTypes types2 = retrievePluginTypes types)
    ∧ (retrievePluginTypes types).status = 200 := by
  have hnd : ∀ l : List String, (l.foldl pluginTypesLoop []).Nodup :=
    fun l => foldl_pluginTypesLoop_nodup l [] List.nodup_nil
  have hmem : ∀ (l : List String) (t : String),
      t ∈ l.foldl pluginTypesLoop [] ↔ t ∈ l := by
    intro l t
    rw [foldl_pluginTypesLoop_mem]
    simp
  have hsorted := sortStrings_sorted (types.foldl pluginTypesLoop [])
  have hnodup : (sortStrings (types.foldl pluginTypesLoop [])).Nodup :=
    (sortStrings_perm _).nodup_iff.2 (hnd types)
  refine ⟨hsorted, ?_, hnodup, ?_, ?_, rfl⟩
  · exact (hsorted.lt_of_le hnodup)
  · intro t
    show t ∈ sortStrings (types.foldl pluginTypesLoop []) ↔ t ∈ types
    rw [(sortStrings_perm _).mem_iff, hmem]
  · intro types2 hp
    have hperm : (types2.foldl pluginTypesLoop []).Perm (types.foldl pluginTypesLoop []) := by
      rw [List.perm_ext_iff_of_nodup (hnd types2) (hnd types)]
      intro t
      rw [hmem, hmem, hp.mem_iff]
    show pluginTypesRetrieveResponse.mk _ _ = pluginTypesRetrieveResponse.mk _ _
    rw [sortStrings_congr hperm]

/-- Witness for C5: the registration orders `b, a, b` and `a, b, b` are listed
alike. -/
theorem retrievePluginTypes_sorted_nodup_complete_witness :
    retrievePluginTypes ["b", "a", "b"] = retrievePluginTypes ["a", "b", "b"] :=
  (retrievePluginTypes_sorted_nodup_complete ["a", "b", "b"]).2.2.2.2.1
    ["b", "a", "b"] (by decide)

/-- What `retrievePipelineTypes` does guarantee: the list written is ascending,
is a permutation of the input (every identifier as often as in the input), and
is the same for every permutation of the input. -/
theorem retrievePipelineTypes_sorted_perm (types : List String) :
    List.Sorted (· ≤ ·) (retrievePipelineTypes types).PipelineTypes
    ∧ (retrievePipelineTypes types).PipelineTypes.Perm types
    ∧ (∀ types2 : List String, types2.Perm types →
        retrievePipelineTypes types2 = retrievePipelineTypes types) := by
  refine ⟨sortStrings_sorted _, ?_, ?_⟩
  · show (sortStrings ([] ++ types)).Perm types
    rw [List.nil_append]
    exact sortStrings_perm types
  · intro types2 hp
    show pipelineTypesRetrieveResponse.mk _ _ = pipelineTypesRetrieveResponse.mk _ _
    rw [List.nil_append, List.nil_append, sortStrings_congr hp]

/-- C4: when `pipelines.GetAllTypes` returns `b, a, b` the `PipelineTypes`
list written by `retrievePipelineTypes` is `a, b, b`: sorted, but `b` occurs
twice. -/
theorem retrievePipelineTypes_keeps_duplicates :
    (retrievePipelineTypes ["b", "a", "b"]).PipelineTypes = ["a", "b", "b"]
    ∧ ¬ (retrievePipelineTypes ["b", "a", "b"]).PipelineTypes.Nodup := by
  have h : (retrievePipelineTypes ["b", "a", "b"]).PipelineTypes = ["a", "b", "b"] := by
    simp [retrievePipelineTypes, sortStrings]
    decide
  refine ⟨h, ?_⟩
  rw [h]
  decide

end rest

namespace rest

theorem updatePlugin_decoded {M C P K : Type} (e : PluginAPI M C P K) (m : M) (r : String)
    (req : configRequest) (buff : String) (conf0 conf : C)
    (h1 : e.DecodeJsonPayload r = .ok req) (h2 : e.Marshal req.Config = .ok buff)
    (h3 : e.GetConfig req.typ = .ok conf0) (h4 : e.Unmarshal buff conf0 = .ok conf) :
    updatePlugin e m r =
      match e.GetPlugin m (e.PluginName conf) with
      | none => ⟨m, StatusNotFound, [.GetPlugin (e.PluginName conf)]⟩
      | some plugin =>
        if e.PluginType plugin ≠ req.typ then
          ⟨m, StatusBadRequest, [.GetPlugin (e.PluginName conf)]⟩
        else
          match e.UpdatePluginConfig m conf with
          | (m1, some _) =>
            ⟨m1, StatusBadRequest, [.GetPlugin (e.PluginName conf), .UpdatePluginConfig conf]⟩
          | (m1, none) =>
            ⟨m1, StatusOK, [.GetPlugin (e.PluginName conf), .UpdatePluginConfig conf]⟩ := by
  simp only [updatePlugin, h1, h2, h3, h4]

theorem updatePipeline_decoded {M C P : Type} (e : PipelineAPI M C P) (m : M) (r : String)
    (req : configRequest) (buff : String) (conf0 conf : C)
    (h1 : e.DecodeJsonPayload r = .ok req) (h2 : e.Marshal req.Config = .ok buff)
    (h3 : e.GetPipelineConfig req.typ = .ok conf0) (h4 : e.Unmarshal buff conf0 = .ok conf) :
    updatePipeline e m r =
      match e.GetPipeline m (e.PipelineName conf) with
      | none => ⟨m, StatusNotFound, [.GetPipeline (e.PipelineName conf)]⟩
      | some pipeline =>
        if e.PipelineType pipeline ≠ req.typ then
          ⟨m, StatusBadRequest, [.GetPipeline (e.PipelineName conf)]⟩
        else
          match e.UpdatePipelineConfig m conf with
          | (m1, some _) =>
            ⟨m1, StatusBadRequest,
              [.GetPipeline (e.PipelineName conf), .UpdatePipelineConfig conf]⟩
          | (m1, none) =>
            ⟨m1, StatusOK, [.GetPipeline (e.PipelineName conf), .UpdatePipelineConfig conf]⟩ := by
  simp only [updatePipeline, h1, h2, h3, h4]

theorem createPlugin_decoded {M C P K : Type} (e : PluginAPI M C P K) (m : M) (r : String)
    (req : configRequest) (cfg buff : String) (conf0 conf : C)
    (h1 : e.DecodeJsonPayload r = .ok req) (h0 : req.Config = some cfg)
    (h2 : e.Marshal (some cfg) = .ok buff)
    (h3 : e.GetConfig req.typ = .ok conf0) (h4 : e.Unmarshal buff conf0 = .ok conf) :
    createPlugin e m r =
      match e.GetPlugin m (e.PluginName conf) with
      | some _ => ⟨m, StatusConflict, [.GetPlugin (e.PluginName conf)]⟩
      | none =>
        match e.GetConstructor req.typ with
        | .error _ => ⟨m, StatusBadRequest, [.GetPlugin (e.PluginName conf)]⟩
        | .ok constructor =>
          match e.AddPlugin m req.typ conf constructor with
          | (m1, some _) =>
            ⟨m1, StatusBadRequest, [.GetPlugin (e.PluginName conf), .AddPlugin req.typ conf]⟩
          | (m1, none) =>
            ⟨m1, StatusOK, [.GetPlugin (e.PluginName conf), .AddPlugin req.typ conf]⟩ := by
  simp only [createPlugin, h1, h0, h2, h3, h4]

theorem createPipeline_decoded {M C P : Type} (e : PipelineAPI M C P) (m : M) (r : String)
    (req : configRequest) (cfg buff : String) (conf0 conf : C)
    (h1 : e.DecodeJsonPayload r = .ok req) (h0 : req.Config = some cfg)
    (h2 : e.Marshal (some cfg) = .ok buff)
    (h3 : e.GetPipelineConfig req.typ = .ok conf0) (h4 : e.Unmarshal buff conf0 = .ok conf) :
    createPipeline e m r =
      match e.GetPipeline m (e.PipelineName conf) with
      | some _ => ⟨m, StatusConflict, [.GetPipeline (e.PipelineName conf)]⟩
      | none =>
        match e.AddPipeline m req.typ conf with
        | (m1, some _) =>
          ⟨m1, StatusBadRequest, [.GetPipeline (e.PipelineName conf), .AddPipeline req.typ conf]⟩
        | (m1, none) =>
          ⟨m1, StatusOK, [.GetPipeline (e.PipelineName conf), .AddPipeline req.typ conf]⟩ := by
  simp only [createPipeline, h1, h0, h2, h3, h4]

/-- C6: for an update request whose payload decodes into a configuration
`conf` of a known type, `updatePlugin` and `updatePipeline` alike answer 404
when `conf`'s name is not registered and 400 when the registered entry's type
differs from the request's type; in both cases the Model's update is not among
the calls made and the Model is left as it was. The update is among the calls
only if the name is registered with the request's type. -/
theorem update_rejects_absent_and_retyped :
    (∀ (M C P K : Type) (e : PluginAPI M C P K) (m : M) (r : String)
        (req : configRequest) (buff : String) (conf0 conf : C),
        e.DecodeJsonPayload r = .ok req → e.Marshal req.Config = .ok buff →
        e.GetConfig req.typ = .ok conf0 → e.Unmarshal buff conf0 = .ok conf →
        (e.GetPlugin m (e.PluginName conf) = none →
          (updatePlugin e m r).status = 404 ∧ (updatePlugin e m r).model = m
          ∧ ∀ c, ModelCall.UpdatePluginConfig c ∉ (updatePlugin e m r).calls)
        ∧ (∀ p, e.GetPlugin m (e.PluginName conf) = some p → e.PluginType p ≠ req.typ →
          (updatePlugin e m r).status = 400 ∧ (updatePlugin e m r).model = m
          ∧ ∀ c, ModelCall.UpdatePluginConfig c ∉ (updatePlugin e m r).calls)
        ∧ (∀ c, ModelCall.UpdatePluginConfig c ∈ (updatePlugin e m r).calls →
          ∃ p, e.GetPlugin m (e.PluginName conf) = some p ∧ e.PluginType p = req.typ))
    ∧ (∀ (M C P : Type) (e : PipelineAPI M C P) (m : M) (r : String)
        (req : configRequest) (buff : String) (conf0 conf : C),
        e.DecodeJsonPayload r = .ok req → e.Marshal req.Config = .ok buff →
        e.GetPipelineConfig req.typ = .ok conf0 → e.Unmarshal buff conf0 = .ok conf →
        (e.GetPipeline m (e.PipelineName conf) = none →
          (updatePipeline e m r).status = 404 ∧ (updatePipeline e m r).model = m
          ∧ ∀ c, ModelCall.UpdatePipelineConfig c ∉ (updatePipeline e m r).calls)
        ∧ (∀ p, e.GetPipeline m (e.PipelineName conf) = some p →
            e.PipelineType p ≠ req.typ →
          (updatePipeline e m r).status = 400 ∧ (updatePipeline e m r).model = m
          ∧ ∀ c, ModelCall.UpdatePipelineConfig c ∉ (updatePipeline e m r).calls)
        ∧ (∀ c, ModelCall.UpdatePipelineConfig c ∈ (updatePipeline e m r).calls →
          ∃ p, e.GetPipeline m (e.PipelineName conf) = some p
            ∧ e.PipelineType p = req.typ)) := by
  constructor
  · intro M C P K e m r req buff conf0 conf h1 h2 h3 h4
    rw [updatePlugin_decoded e m r req buff conf0 conf h1 h2 h3 h4]
    refine ⟨?_, ?_, ?_⟩
    · intro hg
      simp [hg, StatusNotFound]
    · intro p hg ht
      simp [hg, ht, StatusBadRequest]
    · intro c hc
      cases hg : e.GetPlugin m (e.PluginName conf) with
      | none => simp [hg] at hc
      | some p =>
        refine ⟨p, rfl, ?_⟩
        by_contra ht
        simp [hg, ht] at hc
  · intro M C P e m r req buff conf0 conf h1 h2 h3 h4
    rw [updatePipeline_decoded e m r req buff conf0 conf h1 h2 h3 h4]
    refine ⟨?_, ?_, ?_⟩
    · intro hg
      simp [hg, StatusNotFound]
    · intro p hg ht
      simp [hg, ht, StatusBadRequest]
    · intro c hc
      cases hg : e.GetPipeline m (e.PipelineName conf) with
      | none => simp [hg] at hc
      | some p =>
        refine ⟨p, rfl, ?_⟩
        by_contra ht
        simp [hg, ht] at hc

/-- Witness for C6: updating the unregistered plugin `limiter` answers 404,
updating the pipeline `main`, registered with type `ParallelPipeline`, as a
`LinearPipeline` answers 400; neither changes the registry. -/
theorem update_rejects_absent_and_retyped_witness :
    ((updatePlugin registryPluginAPI [] "limiter").status = 404
      ∧ (updatePlugin registryPluginAPI [] "limiter").model = [])
    ∧ ((updatePipeline registryPipelineAPI [("main", "ParallelPipeline")] "main").status = 400
      ∧ (updatePipeline registryPipelineAPI [("main", "ParallelPipeline")] "main").model
          = [("main", "ParallelPipeline")]) := by
  have hp := (update_rejects_absent_and_retyped.1 Registry String String Unit
    registryPluginAPI [] "limiter" ⟨"RateLimiter", some "limiter"⟩ "limiter" "" "limiter"
    rfl rfl rfl rfl).1 (by decide)
  have hq := (update_rejects_absent_and_retyped.2 Registry String String
    registryPipelineAPI [("main", "ParallelPipeline")] "main"
    ⟨"LinearPipeline", some "main"⟩ "main" "" "main"
    rfl rfl rfl rfl).2.1 "ParallelPipeline"
    (by decide) (by decide)
  exact ⟨⟨hp.1, hp.2.1⟩, ⟨hq.1, hq.2.1⟩⟩

end rest

namespace rest

/-- C7: for a create request whose payload decodes into a configuration `conf`
of a known type, `createPlugin` and `createPipeline` alike answer 409 when
`conf`'s name is already registered, make no `AddPlugin` / `AddPipeline` call
and leave the Model as it was. `AddPlugin` / `AddPipeline` is among the calls
only if the name is not registered. -/
theorem create_rejects_registered_name :
    (∀ (M C P K : Type) (e : PluginAPI M C P K) (m : M) (r : String)
        (req : configRequest) (cfg buff : String) (conf0 conf : C),
        e.DecodeJsonPayload r = .ok req → req.Config = some cfg →
        e.Marshal (some cfg) = .ok buff →
        e.GetConfig req.typ = .ok conf0 → e.Unmarshal buff conf0 = .ok conf →
        (∀ p, e.GetPlugin m (e.PluginName conf) = some p →
          (createPlugin e m r).status = 409 ∧ (createPlugin e m r).model = m
          ∧ ∀ t c, ModelCall.AddPlugin t c ∉ (createPlugin e m r).calls)
        ∧ (∀ t c, ModelCall.AddPlugin t c ∈ (createPlugin e m r).calls →
          e.GetPlugin m (e.PluginName conf) = none))
    ∧ (∀ (M C P : Type) (e : PipelineAPI M C P) (m : M) (r : String)
        (req : configRequest) (cfg buff : String) (conf0 conf : C),
        e.DecodeJsonPayload r = .ok req → req.Config = some cfg →
        e.Marshal (some cfg) = .ok buff →
        e.GetPipelineConfig req.typ = .ok conf0 → e.Unmarshal buff conf0 = .ok conf →
        (∀ p, e.GetPipeline m (e.PipelineName conf) = some p →
          (createPipeline e m r).status = 409 ∧ (createPipeline e m r).model = m
          ∧ ∀ t c, ModelCall.AddPipeline t c ∉ (createPipeline e m r).calls)
        ∧ (∀ t c, ModelCall.AddPipeline t c ∈ (createPipeline e m r).calls →
          e.GetPipeline m (e.PipelineName conf) = none)) := by
  constructor
  · intro M C P K e m r req cfg buff conf0 conf h1 h0 h2 h3 h4
    rw [createPlugin_decoded e m r req cfg buff conf0 conf h1 h0 h2 h3 h4]
    refine ⟨?_, ?_⟩
    · intro p hg
      simp [hg, StatusConflict]
    · intro t c hc
      cases hg : e.GetPlugin m (e.PluginName conf) with
      | none => rfl
      | some p => simp [hg] at hc
  · intro M C P e m r req cfg buff conf0 conf h1 h0 h2 h3 h4
    rw [createPipeline_decoded e m r req cfg buff conf0 conf h1 h0 h2 h3 h4]
    refine ⟨?_, ?_⟩
    · intro p hg
      simp [hg, StatusConflict]
    · intro t c hc
      cases hg : e.GetPipeline m (e.PipelineName conf) with
      | none => rfl
      | some p => simp [hg] at hc

/-- Witness for C7: creating the plugin `limiter` and the pipeline `main` a
second time answers 409 and leaves the registry as it was. -/
theorem create_rejects_registered_name_witness :
    ((createPlugin registryPluginAPI [("limiter", "RateLimiter")] "limiter").status = 409
      ∧ (createPlugin registryPluginAPI [("limiter", "RateLimiter")] "limiter").model
          = [("limiter", "RateLimiter")])
    ∧ ((createPipeline registryPipelineAPI [("main", "LinearPipeline")] "main").status = 409
      ∧ (createPipeline registryPipelineAPI [("main", "LinearPipeline")] "main").model
          = [("main", "LinearPipeline")]) := by
  have hp := (create_rejects_registered_name.1 Registry String String Unit
    registryPluginAPI [("limiter", "RateLimiter")] "limiter"
    ⟨"RateLimiter", some "limiter"⟩ "limiter" "limiter" "" "limiter"
    rfl rfl rfl rfl rfl).1 "RateLimiter" (by decide)
  have hq := (create_rejects_registered_name.2 Registry String String
    registryPipelineAPI [("main", "LinearPipeline")] "main"
    ⟨"LinearPipeline", some "main"⟩ "main" "main" "" "main"
    rfl rfl rfl rfl rfl).1 "LinearPipeline" (by decide)
  exact ⟨⟨hp.1, hp.2.1⟩, ⟨hq.1, hq.2.1⟩⟩

/-- Dismissal in the Model of the spec keeps every entry: it only replaces the
instance state of the entries named `name`. -/
theorem Model.GetPlugin_DismissPluginInstance {C I : Type} (teardown : I → I × Option String)
    (m : Model C I) (name n : String) :
    ((m.DismissPluginInstance teardown name).1).GetPlugin n
      = (m.GetPlugin n).map (fun en =>
          match m.GetPlugin name with
          | none => en
          | some old => if n = name then { en with inst := (teardown old.inst).1 } else en) := by
  unfold Model.DismissPluginInstance
  cases hg : m.GetPlugin name with
  | none => simp
  | some old =>
    simp only [Model.GetPlugin]
    induction m.plugins with
    | nil => simp
    | cons hd tl ih =>
      obtain ⟨k, v⟩ := hd
      by_cases hk : k = name
      · subst hk
        by_cases hn : n = k
        · subst hn
          simp [List.lookup_cons]
        · have hne : (n == k) = false := by simpa using hn
          simp only [List.map_cons, if_true, List.lookup_cons, hne]
          exact ih
      · by_cases hn : n = k
        · subst hn
          simp [List.lookup_cons, hk]
        · have hne : (n == k) = false := by simpa using hn
          simp only [List.map_cons, hk, if_false, List.lookup_cons, hne]
          exact ih

/-- C8: for a `deletePlugin` request whose path parameter unescapes to `name`,
over any Model. If `name` is registered: `DeletePlugin` is among the calls
only as the call right after a `DismissPluginInstance name` that returned no
error; when `DismissPluginInstance` returns an error the answer is 500,
`DeletePlugin` is not called and the Model is the one the failed dismissal
left. If `name` is not registered the answer is 404, the only call is the
lookup, and the Model is left as it was. Over the Model of the spec, whose
dismissal runs the instance's teardown: when the dismissal of a registered
`name` returns an error, the answer is 500, `DeletePlugin` is not called and
`name` is still registered afterwards, with its type and configuration. -/
theorem deletePlugin_dismisses_first {M C P K : Type} (e : PluginAPI M C P K) (m : M)
    (param name : String) (hname : e.QueryUnescape param = .ok name) :
    (∀ p, e.GetPlugin m name = some p →
      (∀ n, ModelCall.DeletePlugin n ∈ (deletePlugin e m param).calls →
        n = name ∧ (e.DismissPluginInstance m name).2 = none
        ∧ (deletePlugin e m param).calls =
            [.GetPlugin name, .DismissPluginInstance name, .DeletePlugin name])
      ∧ (∀ err, (e.DismissPluginInstance m name).2 = some err →
        (deletePlugin e m param).status = 500
        ∧ (∀ n, ModelCall.DeletePlugin n ∉ (deletePlugin e m param).calls)
        ∧ (deletePlugin e m param).calls = [.GetPlugin name, .DismissPluginInstance name]
        ∧ (deletePlugin e m param).model = (e.DismissPluginInstance m name).1))
    ∧ (e.GetPlugin m name = none →
      (deletePlugin e m param).status = 404
      ∧ (deletePlugin e m param).calls = [.GetPlugin name]
      ∧ (∀ n, ModelCall.DismissPluginInstance n ∉ (deletePlugin e m param).calls)
      ∧ (∀ n, ModelCall.DeletePlugin n ∉ (deletePlugin e m param).calls)
      ∧ (deletePlugin e m param).model = m)
    ∧ (∀ (I : Type) (em : PluginAPI (Model C I) C (Entry C I) K)
        (teardown : I → I × Option String) (mm : Model C I),
        em.QueryUnescape param = .ok name →
        ∀ en, mm.GetPlugin name = some en →
        ∀ err, (mm.DismissPluginInstance teardown name).2 = some err →
          (deletePlugin (em.onModel teardown) mm param).status = 500
          ∧ (∀ n, ModelCall.DeletePlugin n ∉ (deletePlugin (em.onModel teardown) mm param).calls)
          ∧ ((deletePlugin (em.onModel teardown) mm param).model).GetPlugin name
              = some { en with inst := (teardown en.inst).1 }
          ∧ ∀ n, (((deletePlugin (em.onModel teardown) mm param).model).GetPlugin n).isSome
              = (mm.GetPlugin n).isSome) := by
  have key : ∀ {M2 P2 : Type} (e2 : PluginAPI M2 C P2 K) (m2 : M2),
      e2.QueryUnescape param = .ok name →
      deletePlugin e2 m2 param =
      match e2.GetPlugin m2 name with
      | none => ⟨m2, StatusNotFound, [.GetPlugin name]⟩
      | some _ =>
        match e2.DismissPluginInstance m2 name with
        | (m1, some _) =>
          ⟨m1, StatusInternalServerError, [.GetPlugin name, .DismissPluginInstance name]⟩
        | (m1, none) =>
          match e2.DeletePlugin m1 name with
          | (m3, some _) =>
            ⟨m3, StatusNotAcceptable,
              [.GetPlugin name, .DismissPluginInstance name, .DeletePlugin name]⟩
          | (m3, none) =>
            ⟨m3, StatusOK,
              [.GetPlugin name, .DismissPluginInstance name, .DeletePlugin name]⟩ := by
    intro M2 P2 e2 m2 h2
    simp only [deletePlugin, h2]
  refine ⟨?_, ?_, ?_⟩
  · rw [key e m hname]
    intro p hg
    rcases hd : e.DismissPluginInstance m name with ⟨m1, _ | err⟩
    · rcases hx : e.DeletePlugin m1 name with ⟨m2, _ | err2⟩ <;> simp [hg, hx]
    · simp [hg, StatusInternalServerError]
  · rw [key e m hname]
    intro hg
    simp [hg, StatusNotFound]
  · intro I em teardown mm hq en hg err herr
    have hq2 : (em.onModel teardown).QueryUnescape param = .ok name := hq
    have hg2 : (em.onModel teardown).GetPlugin mm name = some en := hg
    have hkeep := Model.GetPlugin_DismissPluginInstance teardown mm name
    rw [key (em.onModel teardown) mm hq2, hg2]
    rcases hd : (em.onModel teardown).DismissPluginInstance mm name with ⟨m1, _ | err1⟩
    · have hd2 : mm.DismissPluginInstance teardown name = (m1, none) := hd
      rw [hd2] at herr
      simp at herr
    · have hd2 : mm.DismissPluginInstance teardown name = (m1, some err1) := hd
      rw [hd2] at hkeep
      refine ⟨rfl, ?_, ?_, ?_⟩
      · intro n hn
        simp at hn
      · show m1.GetPlugin name = _
        rw [hkeep name, hg]
        simp
      · intro n
        show (m1.GetPlugin n).isSome = _
        rw [hkeep n]
        simp

/-- Witness for C8: over the sample registry the plugin `stuck` fails to
dismiss and the answer is 500; over the Model of the spec the teardown of the
registered plugin `limiter` fails, the answer is 500 and `limiter` is still
registered. -/
theorem deletePlugin_dismisses_first_witness :
    (deletePlugin registryPluginAPI [("stuck", "RateLimiter")] "stuck").status = 500
    ∧ (deletePlugin (modelPluginAPI.onModel failingTeardown) sampleModel "limiter").status = 500
    ∧ ((deletePlugin (modelPluginAPI.onModel failingTeardown) sampleModel "limiter").model).GetPlugin
        "limiter" = some ⟨"RateLimiter", "limiter", true⟩ := by
  have h := deletePlugin_dismisses_first registryPluginAPI [("stuck", "RateLimiter")]
    "stuck" "stuck" rfl
  have h1 := (h.1 "RateLimiter" (by decide)).2 "dismiss failed" (by decide)
  have k := deletePlugin_dismisses_first registryPluginAPI [("limiter", "RateLimiter")]
    "limiter" "limiter" rfl
  have k1 := k.2.2 Bool modelPluginAPI failingTeardown sampleModel rfl
    ⟨"RateLimiter", "limiter", true⟩ rfl "teardown failed" rfl
  exact ⟨h1.1, k1.1, k1.2.2.1⟩

end rest

namespace requestadaptor

theorem Handle_fst {PS A PA : Type} (d : Deps PS A PA) (ra : RequestAdaptor PS A PA)
    (ctx : HTTPContext) : (Handle d ra ctx).1 = "" := rfl

/-- Method, tags, path and setter calls after `Handle`, whatever the header
rule. -/
theorem Handle_method_tags {PS A PA : Type} (d : Deps PS A PA) (ra : RequestAdaptor PS A PA)
    (ctx : HTTPContext) :
    (Handle d ra ctx).2.method
        = (if ra.spec.Method ≠ "" ∧ ra.spec.Method ≠ ctx.method then ra.spec.Method
           else ctx.method)
    ∧ (Handle d ra ctx).2.tags
        = ctx.tags
          ++ (if ra.spec.Method ≠ "" ∧ ra.spec.Method ≠ ctx.method
              then [methodTag ctx.method ra.spec.Method] else [])
          ++ (match ra.pathAdaptor with
              | some pa =>
                if d.Adapt pa ctx.path ≠ ctx.path
                then [pathTag ctx.path (d.Adapt pa ctx.path)] else []
              | none => [])
    ∧ (Handle d ra ctx).2.path
        = (match ra.pathAdaptor with
           | some pa => d.Adapt pa ctx.path
           | none => ctx.path)
    ∧ (Handle d ra ctx).2.setterCalls
        = ctx.setterCalls
          ++ (if ra.spec.Method ≠ "" ∧ ra.spec.Method ≠ ctx.method
              then [RequestCall.SetMethod ra.spec.Method] else [])
          ++ (match ra.pathAdaptor with
              | some pa => [RequestCall.SetPath (d.Adapt pa ctx.path)]
              | none => []) := by
  unfold Handle
  cases hp : ra.pathAdaptor <;> cases hh : ra.spec.Header <;>
    by_cases hm : ra.spec.Method ≠ "" ∧ ra.spec.Method ≠ ctx.method <;>
    simp only [hm, if_true, if_false, HTTPContext.AddTag, HTTPContext.SetMethod,
      HTTPContext.SetPath, List.append_nil, and_self] <;>
    (try split_ifs) <;> simp

theorem New_pathAdaptor {PS A PA : Type} (d : Deps PS A PA) (spec : Spec PS A) :
    (New d spec).spec = spec
    ∧ (New d spec).pathAdaptor
        = (match spec.Path with
           | some p => some (d.newPathAdaptor p)
           | none => none) := ⟨rfl, rfl⟩

end requestadaptor

namespace requestadaptor

/-- C9: a RequestAdaptor built from a spec with a non-empty target method and
no path rule, applied to a request whose method differs from the target, sets
the method to the target and appends exactly one tag, the method tag; applied
again to the resulting request it appends no tag and leaves the method at the
target. For any spec, when the request's method already is the target, or no
target is configured, the method is unchanged and the only tag that may be
appended is the path tag. -/
theorem Handle_method_tag_once {PS A PA : Type} (d : Deps PS A PA) (spec : Spec PS A)
    (ctx : HTTPContext) :
    (spec.Method ≠ "" → spec.Path = none → ctx.method ≠ spec.Method →
      (Handle d (New d spec) ctx).2.method = spec.Method
      ∧ (Handle d (New d spec) ctx).2.tags = ctx.tags ++ [methodTag ctx.method spec.Method]
      ∧ (Handle d (New d spec) (Handle d (New d spec) ctx).2).2.tags
          = (Handle d (New d spec) ctx).2.tags
      ∧ (Handle d (New d spec) (Handle d (New d spec) ctx).2).2.method = spec.Method)
    ∧ (spec.Method = "" ∨ ctx.method = spec.Method →
      (Handle d (New d spec) ctx).2.method = ctx.method
      ∧ (Handle d (New d spec) ctx).2.tags
          = ctx.tags
            ++ (match spec.Path with
                | some ps =>
                  if d.Adapt (d.newPathAdaptor ps) ctx.path ≠ ctx.path
                  then [pathTag ctx.path (d.Adapt (d.newPathAdaptor ps) ctx.path)] else []
                | none => [])) := by
  constructor
  · intro hne hpath hm
    have hpa : (New d spec).pathAdaptor = none := by
      rw [(New_pathAdaptor d spec).2, hpath]
    have hcond : (New d spec).spec.Method ≠ "" ∧ (New d spec).spec.Method ≠ ctx.method :=
      ⟨hne, fun h => hm h.symm⟩
    obtain ⟨h1, h2, -⟩ := Handle_method_tags d (New d spec) ctx
    rw [if_pos hcond] at h1 h2
    rw [hpa] at h2
    have h1' : (Handle d (New d spec) ctx).2.method = spec.Method := h1
    have h2' : (Handle d (New d spec) ctx).2.tags
        = ctx.tags ++ [methodTag ctx.method spec.Method] := by
      rw [h2]
      simp [New]
    obtain ⟨k1, k2, -⟩ := Handle_method_tags d (New d spec) (Handle d (New d spec) ctx).2
    have hcond2 : ¬ ((New d spec).spec.Method ≠ ""
        ∧ (New d spec).spec.Method ≠ (Handle d (New d spec) ctx).2.method) := by
      rw [h1']
      exact fun h => h.2 rfl
    rw [if_neg hcond2] at k1 k2
    rw [hpa] at k2
    refine ⟨h1', h2', ?_, ?_⟩
    · rw [k2]
      simp
    · rw [k1, h1']
  · intro hm
    have hcond : ¬ ((New d spec).spec.Method ≠ "" ∧ (New d spec).spec.Method ≠ ctx.method) := by
      rintro ⟨ha, hb⟩
      rcases hm with h | h
      · exact ha h
      · exact hb h.symm
    obtain ⟨h1, h2, -⟩ := Handle_method_tags d (New d spec) ctx
    rw [if_neg hcond] at h1 h2
    refine ⟨h1, ?_⟩
    rw [h2, (New_pathAdaptor d spec).2]
    cases spec.Path <;> simp

/-- Witness for C9: target `POST` on a `GET` request records one tag and the
method `POST`; a second pass records nothing more. -/
theorem Handle_method_tag_once_witness :
    (Handle sampleDeps (New sampleDeps ⟨"POST", none, none⟩) sampleRequest).2.method = "POST"
    ∧ (Handle sampleDeps (New sampleDeps ⟨"POST", none, none⟩) sampleRequest).2.tags
        = ["requestAdaptor: method GET adapted to POST"]
    ∧ (Handle sampleDeps (New sampleDeps ⟨"POST", none, none⟩)
        (Handle sampleDeps (New sampleDeps ⟨"POST", none, none⟩) sampleRequest).2).2.tags
        = ["requestAdaptor: method GET adapted to POST"] := by
  have h := (Handle_method_tag_once sampleDeps ⟨"POST", none, none⟩ sampleRequest).1
    (by decide) rfl (by decide)
  refine ⟨h.1, ?_, ?_⟩
  · rw [h.2.1]
    decide
  · rw [h.2.2.1, h.2.1]
    decide

/-- C10: `Handle` always returns the empty result. With a path rule it calls
`SetPath` exactly once, with `Adapt(p)` for the path `p` the request had on
entry, in every case (also when `Adapt(p) = p`), so the path becomes
`Adapt(p)`; after the method tag (if any) the path tag is appended exactly
when `Adapt(p)` differs from `p`. Without a path rule `SetPath` is not called,
the path is unchanged and nothing is appended but the method tag (if any). -/
theorem Handle_continue_and_path {PS A PA : Type} (d : Deps PS A PA) (spec : Spec PS A)
    (ctx : HTTPContext) :
    (Handle d (New d spec) ctx).1 = ""
    ∧ (∀ ps, spec.Path = some ps →
      (Handle d (New d spec) ctx).2.path = d.Adapt (d.newPathAdaptor ps) ctx.path
      ∧ (Handle d (New d spec) ctx).2.tags
          = ctx.tags
            ++ (if spec.Method ≠ "" ∧ spec.Method ≠ ctx.method
                then [methodTag ctx.method spec.Method] else [])
            ++ (if d.Adapt (d.newPathAdaptor ps) ctx.path ≠ ctx.path
                then [pathTag ctx.path (d.Adapt (d.newPathAdaptor ps) ctx.path)] else [])
      ∧ (Handle d (New d spec) ctx).2.setterCalls
          = ctx.setterCalls
            ++ (if spec.Method ≠ "" ∧ spec.Method ≠ ctx.method
                then [RequestCall.SetMethod spec.Method] else [])
            ++ [RequestCall.SetPath (d.Adapt (d.newPathAdaptor ps) ctx.path)])
    ∧ (spec.Path = none →
      (Handle d (New d spec) ctx).2.path = ctx.path
      ∧ (Handle d (New d spec) ctx).2.tags
          = ctx.tags
            ++ (if spec.Method ≠ "" ∧ spec.Method ≠ ctx.method
                then [methodTag ctx.method spec.Method] else [])
      ∧ (Handle d (New d spec) ctx).2.setterCalls
          = ctx.setterCalls
            ++ (if spec.Method ≠ "" ∧ spec.Method ≠ ctx.method
                then [RequestCall.SetMethod spec.Method] else [])
      ∧ ∀ q, RequestCall.SetPath q ∈ (Handle d (New d spec) ctx).2.setterCalls →
          RequestCall.SetPath q ∈ ctx.setterCalls) := by
  obtain ⟨-, h2, h3, h4⟩ := Handle_method_tags d (New d spec) ctx
  rw [(New_pathAdaptor d spec).2] at h2 h3 h4
  rw [(New_pathAdaptor d spec).1] at h2 h4
  refine ⟨rfl, ?_, ?_⟩
  · intro ps hps
    rw [hps] at h2 h3 h4
    exact ⟨h3, h2, h4⟩
  · intro hps
    rw [hps] at h2 h3 h4
    have h4' : (Handle d (New d spec) ctx).2.setterCalls
        = ctx.setterCalls
          ++ (if spec.Method ≠ "" ∧ spec.Method ≠ ctx.method
              then [RequestCall.SetMethod spec.Method] else []) := by
      rw [h4]
      simp
    refine ⟨h3, ?_, h4', ?_⟩
    · rw [h2]
      simp
    · intro q hq
      rw [h4'] at hq
      rcases List.mem_append.1 hq with h | h
      · exact h
      · split_ifs at h <;> simp at h

/-- Witness for C10: with the rule "add prefix `/api`" and no target method,
`/users` becomes `/api/users` by one `SetPath` call and the path tag is the
only tag; with the rule "add prefix ``" the path is written back unchanged,
by one `SetPath` call, and no tag is added. -/
theorem Handle_continue_and_path_witness :
    (Handle sampleDeps (New sampleDeps ⟨"", some "/api", none⟩) sampleRequest).2.path
      = "/api/users"
    ∧ (Handle sampleDeps (New sampleDeps ⟨"", some "/api", none⟩) sampleRequest).2.tags
      = ["requestAdaptor: path /users adapted to /api/users"]
    ∧ (Handle sampleDeps (New sampleDeps ⟨"", some "/api", none⟩) sampleRequest).2.setterCalls
      = [RequestCall.SetPath "/api/users"]
    ∧ (Handle sampleDeps (New sampleDeps ⟨"", some "", none⟩) sampleRequest).2.setterCalls
      = [RequestCall.SetPath "/users"]
    ∧ (Handle sampleDeps (New sampleDeps ⟨"", some "", none⟩) sampleRequest).2.tags = [] := by
  have h := (Handle_continue_and_path sampleDeps ⟨"", some "/api", none⟩ sampleRequest).2.1
    "/api" rfl
  have k := (Handle_continue_and_path sampleDeps ⟨"", some "", none⟩ sampleRequest).2.1
    "" rfl
  refine ⟨?_, ?_, ?_, ?_, ?_⟩
  · rw [h.1]
    decide
  · rw [h.2.1]
    decide
  · rw [h.2.2]
    decide
  · rw [k.2.2]
    decide
  · rw [k.2.1]
    decide

end requestadaptor

/-! ### Stores -/

theorem updateAt_append_length {α : Type} (l : List α) (x : α) (f : α → α) :
    updateAt (l ++ [x]) l.length f = l ++ [f x] := by
  induction l with
  | nil => rfl
  | cons y ys ih => simp [updateAt, ih]

theorem getElem?_updateAt_self {α : Type} (l : List α) (i : Nat) (f : α → α) :
    (updateAt l i f)[i]? = (l[i]?).map f := by
  induction l generalizing i with
  | nil => simp [updateAt]
  | cons y ys ih =>
    cases i with
    | zero => simp [updateAt]
    | succ i => simp [updateAt, ih]

theorem getElem?_append_length {α : Type} (l : List α) (x : α) :
    (l ++ [x])[l.length]? = some x := by
  induction l with
  | nil => rfl
  | cons y ys ih => simp

theorem getLastD_cons_eq {α : Type} (x t : α) (l : List α) :
    (x :: l).getLastD t = l.getLastD x := by
  cases l <;> rfl

namespace ratelimiter

/-- A hot reload copies the three pointers of its predecessor and only sets
the limit of the limiter they share. -/
theorem New_reload {FS F : Type} (d : Deps FS F) (s : Spec FS) (prev : RateLimiter FS F)
    (w : World) :
    (New d s (some prev) w).1.limiter = prev.limiter
    ∧ (New d s (some prev) w).1.rate1 = prev.rate1
    ∧ (New d s (some prev) w).1.done = prev.done
    ∧ (New d s (some prev) w).2
        = { w with limiters := updateAt w.limiters prev.limiter
                    (fun l => { l with limit := s.TPS }) } := by
  unfold New
  by_cases ht : s.Timeout ≠ ""
  · cases hp : d.ParseDuration s.Timeout <;> simp [ht, hp]
  · simp [ht]

/-- A first construction allocates one limiter, one accumulator, one channel
and starts one ticker. -/
theorem New_fresh {FS F : Type} (d : Deps FS F) (s : Spec FS) (w : World) :
    (New d s none w).1.limiter = w.limiters.length
    ∧ (New d s none w).1.rate1 = w.ewmas.length
    ∧ (New d s none w).1.done = w.chans.length
    ∧ (New d s none w).2
        = { limiters := w.limiters ++ [⟨s.TPS, 1⟩],
            ewmas := w.ewmas ++ [NewEWMA1],
            chans := w.chans ++ [Chan.opened],
            tickers := w.tickers ++ [⟨w.ewmas.length, w.chans.length⟩] } := by
  unfold New
  by_cases ht : s.Timeout ≠ ""
  · cases hp : d.ParseDuration s.Timeout <;> simp [ht, hp]
  · simp [ht]

/-- Reloads of an instance whose limiter and accumulator are the last objects
of their stores: pointers are inherited, the limiter ends with the last TPS
and burst 1, the accumulator has seen every activity, nothing else changes. -/
theorem reloads_shared {FS F : Type} (d : Deps FS F)
    (rest : List (List Activity × Spec FS)) :
    ∀ (prev : RateLimiter FS F) (L : List Limiter) (t : Nat) (E : List EWMA) (a : EWMA)
      (Cs : List Chan) (T : List Ticker),
      prev.limiter = L.length → prev.rate1 = E.length →
      (∀ r ∈ (reloads d prev ⟨L ++ [⟨t, 1⟩], E ++ [a], Cs, T⟩ rest).1,
          r.limiter = prev.limiter ∧ r.rate1 = prev.rate1 ∧ r.done = prev.done)
      ∧ (reloads d prev ⟨L ++ [⟨t, 1⟩], E ++ [a], Cs, T⟩ rest).2
          = ⟨L ++ [⟨((rest.map (fun p => p.2.TPS)).getLastD t), 1⟩],
             E ++ [(rest.map (fun p => p.1)).flatten.foldl Activity.apply a], Cs, T⟩
      ∧ (reloads d prev ⟨L ++ [⟨t, 1⟩], E ++ [a], Cs, T⟩ rest).1.length = rest.length := by
  induction rest with
  | nil =>
    intro prev L t E a Cs T _ _
    simp [reloads]
  | cons hd tl ih =>
    intro prev L t E a Cs T hl he
    obtain ⟨acts, s⟩ := hd
    have hw : runActivities prev.rate1 ⟨L ++ [⟨t, 1⟩], E ++ [a], Cs, T⟩ acts
        = ⟨L ++ [⟨t, 1⟩], E ++ [acts.foldl Activity.apply a], Cs, T⟩ := by
      simp only [runActivities, he, updateAt_append_length]
    obtain ⟨n1, n2, n3, n4⟩ := New_reload d s prev
      ⟨L ++ [⟨t, 1⟩], E ++ [acts.foldl Activity.apply a], Cs, T⟩
    have hw2 : (New d s (some prev)
        ⟨L ++ [⟨t, 1⟩], E ++ [acts.foldl Activity.apply a], Cs, T⟩).2
        = ⟨L ++ [⟨s.TPS, 1⟩], E ++ [acts.foldl Activity.apply a], Cs, T⟩ := by
      rw [n4]
      simp only [hl, updateAt_append_length]
    obtain ⟨i1, i2, i3⟩ := ih
      (New d s (some prev) ⟨L ++ [⟨t, 1⟩], E ++ [acts.foldl Activity.apply a], Cs, T⟩).1
      L s.TPS E (acts.foldl Activity.apply a) Cs T (n1.trans hl) (n2.trans he)
    simp only [reloads, hw, hw2]
    refine ⟨?_, ?_, ?_⟩
    · intro r hr
      rcases List.mem_cons.1 hr with h | h
      · subst h
        exact ⟨n1, n2, n3⟩
      · obtain ⟨j1, j2, j3⟩ := i1 r h
        exact ⟨j1.trans n1, j2.trans n2, j3.trans n3⟩
    · rw [i2]
      simp only [List.map_cons, List.flatten_cons, List.foldl_append, getLastD_cons_eq]
    · simp [i3]

/-- The chain `r0 = New(s0, nil)`, `r1 = New(s1, r0)`, ... started in `w`:
every instance points to the objects allocated by the first call, whose final
contents are given. -/
theorem chain_shared {FS F : Type} (d : Deps FS F) (s0 : Spec FS)
    (rest : List (List Activity × Spec FS)) (w : World) :
    (∀ r ∈ (chain d s0 rest w).1,
        r.limiter = w.limiters.length ∧ r.rate1 = w.ewmas.length ∧ r.done = w.chans.length)
    ∧ (chain d s0 rest w).2
        = ⟨w.limiters ++ [⟨((rest.map (fun p => p.2.TPS)).getLastD s0.TPS), 1⟩],
           w.ewmas ++ [(rest.map (fun p => p.1)).flatten.foldl Activity.apply NewEWMA1],
           w.chans ++ [Chan.opened],
           w.tickers ++ [⟨w.ewmas.length, w.chans.length⟩]⟩
    ∧ (chain d s0 rest w).1.length = rest.length + 1 := by
  obtain ⟨f1, f2, f3, f4⟩ := New_fresh d s0 w
  obtain ⟨i1, i2, i3⟩ := reloads_shared d rest (New d s0 none w).1 w.limiters s0.TPS w.ewmas
    NewEWMA1 (w.chans ++ [Chan.opened]) (w.tickers ++ [⟨w.ewmas.length, w.chans.length⟩]) f1 f2
  simp only [chain, f4]
  refine ⟨?_, i2, ?_⟩
  · intro r hr
    rcases List.mem_cons.1 hr with h | h
    · subst h
      exact ⟨f1, f2, f3⟩
    · obtain ⟨j1, j2, j3⟩ := i1 r h
      exact ⟨j1.trans f1, j2.trans f2, j3.trans f3⟩
  · simp [i3]

end ratelimiter

namespace ratelimiter

/-- C1, as stated, fails: on the instance `New(spec, nil)` the first `Close`
closes the channel and the second `Close` panics with "close of closed
channel". -/
theorem Close_twice_panics :
    Close (New sampleDeps sampleSpec none World.empty).1
        (New sampleDeps sampleSpec none World.empty).2
      = .ok ⟨[⟨10, 1⟩], [NewEWMA1], [Chan.closed], [⟨0, 0⟩]⟩
    ∧ Close (New sampleDeps sampleSpec none World.empty).1
        ⟨[⟨10, 1⟩], [NewEWMA1], [Chan.closed], [⟨0, 0⟩]⟩
      = .error Panic.closeOfClosedChannel :=
  ⟨rfl, rfl⟩

/-- C1, amended: for instances `ri`, `rj` of a chain started by `New(s0, nil)`
(the same instance, or two instances hot-reloaded one from the other), `Close`
on `ri` completes normally and leaves the termination signal closed and
everything else as it was; a following `Close` on `rj` returns at once with
the panic "close of closed channel", the signal staying closed. -/
theorem Close_then_Close_panics {FS F : Type} (d : Deps FS F) (s0 : Spec FS)
    (rest : List (List Activity × Spec FS)) (w : World) (ri rj : RateLimiter FS F)
    (hi : ri ∈ (chain d s0 rest w).1) (hj : rj ∈ (chain d s0 rest w).1) :
    ∃ w1, Close ri (chain d s0 rest w).2 = .ok w1
      ∧ w1 = { (chain d s0 rest w).2 with chans := w.chans ++ [Chan.closed] }
      ∧ w1.chans[ri.done]? = some Chan.closed
      ∧ w1.chans[rj.done]? = some Chan.closed
      ∧ Close rj w1 = .error Panic.closeOfClosedChannel := by
  obtain ⟨hptr, hw, -⟩ := chain_shared d s0 rest w
  obtain ⟨-, -, hdi⟩ := hptr ri hi
  obtain ⟨-, -, hdj⟩ := hptr rj hj
  have hget : (w.chans ++ [Chan.closed])[w.chans.length]? = some Chan.closed :=
    getElem?_append_length _ _
  refine ⟨{ (chain d s0 rest w).2 with chans := w.chans ++ [Chan.closed] }, ?_, rfl, ?_, ?_, ?_⟩
  · rw [hw]
    simp only [Close, hdi, getElem?_append_length, updateAt_append_length]
  · rw [hdi]
    exact hget
  · rw [hdj]
    exact hget
  · simp only [Close, hdj, hget]

/-- Witness for amended C1: `r0 = New(s0, nil)` and `r1 = New(s1, r0)`; after
`r1.Close()`, `r0.Close()` panics. -/
theorem Close_then_Close_panics_witness :
    ∃ w1, Close (New sampleDeps { sampleSpec with TPS := 20 }
              (some (New sampleDeps sampleSpec none World.empty).1)
              (New sampleDeps sampleSpec none World.empty).2).1
            (chain sampleDeps sampleSpec [([], { sampleSpec with TPS := 20 })] World.empty).2
          = .ok w1
      ∧ Close (New sampleDeps sampleSpec none World.empty).1 w1
          = .error Panic.closeOfClosedChannel := by
  obtain ⟨w1, h1, -, -, -, h2⟩ := Close_then_Close_panics sampleDeps sampleSpec
    [([], { sampleSpec with TPS := 20 })] World.empty
    (New sampleDeps { sampleSpec with TPS := 20 }
      (some (New sampleDeps sampleSpec none World.empty).1)
      (New sampleDeps sampleSpec none World.empty).2).1
    (New sampleDeps sampleSpec none World.empty).1
    (by simp [chain, reloads, runActivities, updateAt, New, sampleSpec, World.empty])
    (by simp [chain])
  exact ⟨w1, h1, h2⟩

/-- C2: in the chain `r0 = New(s0, nil)`, `r1 = New(s1, r0)`, ...,
`rn = New(sn, r(n-1))` started in world `w`, with any accumulator activity in
between: one ticker and one open channel are added to the world, by the first
call already; one limiter and one accumulator are added; every `ri` points to
the limiter, accumulator and channel of `r0`; the accumulator holds what the
activities applied in order to a new EWMA give; the limiter has the rate
`sn.TPS` and burst 1. -/
theorem chain_shares_runtime_state {FS F : Type} (d : Deps FS F) (s0 : Spec FS)
    (rest : List (List Activity × Spec FS)) (w : World) :
    (chain d s0 rest w).1.length = rest.length + 1
    ∧ (chain d s0 rest w).1.head? = some (New d s0 none w).1
    ∧ (chain d s0 rest w).2.tickers = w.tickers ++ [⟨w.ewmas.length, w.chans.length⟩]
    ∧ (chain d s0 rest w).2.chans = w.chans ++ [Chan.opened]
    ∧ (New d s0 none w).2.tickers = (chain d s0 rest w).2.tickers
    ∧ (New d s0 none w).2.chans = (chain d s0 rest w).2.chans
    ∧ (chain d s0 rest w).2.limiters.length = w.limiters.length + 1
    ∧ (chain d s0 rest w).2.ewmas.length = w.ewmas.length + 1
    ∧ (∀ r ∈ (chain d s0 rest w).1,
        r.limiter = (New d s0 none w).1.limiter ∧ r.rate1 = (New d s0 none w).1.rate1
        ∧ r.done = (New d s0 none w).1.done)
    ∧ (chain d s0 rest w).2.ewmas[(New d s0 none w).1.rate1]?
        = some ((rest.map (fun p => p.1)).flatten.foldl Activity.apply NewEWMA1)
    ∧ (chain d s0 rest w).2.limiters[(New d s0 none w).1.limiter]?
        = some ⟨(rest.map (fun p => p.2.TPS)).getLastD s0.TPS, 1⟩ := by
  obtain ⟨hptr, hw, hlen⟩ := chain_shared d s0 rest w
  obtain ⟨f1, f2, f3, f4⟩ := New_fresh d s0 w
  refine ⟨hlen, rfl, ?_, ?_, ?_, ?_, ?_, ?_, ?_, ?_, ?_⟩
  · rw [hw]
  · rw [hw]
  · rw [hw, f4]
  · rw [hw, f4]
  · rw [hw]
    simp
  · rw [hw]
    simp
  · intro r hr
    obtain ⟨j1, j2, j3⟩ := hptr r hr
    exact ⟨j1.trans f1.symm, j2.trans f2.symm, j3.trans f3.symm⟩
  · rw [hw, f2]
    exact getElem?_append_length _ _
  · rw [hw, f1]
    exact getElem?_append_length _ _

/-- Witness for C2: `r0` with 10 tokens per second, three requests and a tick,
then a reload with 20 tokens per second: a single ticker, the limiter at 20 with
burst 1, and the three requests still in the accumulator. -/
theorem chain_shares_runtime_state_witness :
    (chain sampleDeps sampleSpec
        [([.Update 1, .Update 1, .Update 1, .Tick], { sampleSpec with TPS := 20 })]
        World.empty).2.tickers = [⟨0, 0⟩]
    ∧ (chain sampleDeps sampleSpec
        [([.Update 1, .Update 1, .Update 1, .Tick], { sampleSpec with TPS := 20 })]
        World.empty).2.ewmas[0]? = some ⟨0, [3]⟩
    ∧ (chain sampleDeps sampleSpec
        [([.Update 1, .Update 1, .Update 1, .Tick], { sampleSpec with TPS := 20 })]
        World.empty).2.limiters[0]? = some ⟨20, 1⟩ := by
  have h := chain_shares_runtime_state sampleDeps sampleSpec
    [([.Update 1, .Update 1, .Update 1, .Tick], { sampleSpec with TPS := 20 })] World.empty
  exact ⟨h.2.2.1, h.2.2.2.2.2.2.2.2.2.1, h.2.2.2.2.2.2.2.2.2.2⟩

/-- C3: `Handle` is decided by the token wait. Granted: the result is empty and
the context is untouched (no status set, no fallback run). Failed: the context
is the one left by the fallback when the limiter has one, otherwise the
incoming one, with status 429 set on top, and the result is `timeout`. Either
way the world changes by exactly one `Update(1)` on the limiter's accumulator,
which adds one uncounted event. -/
theorem Handle_by_wait {FS F : Type} (d : Deps FS F) (rl : RateLimiter FS F)
    (wait : Option Nat → Option String) (ctx : HTTPContext) (w : World) :
    (wait rl.spec.timeout = none →
      (Handle d rl wait ctx w).1 = "" ∧ (Handle d rl wait ctx w).2.1 = ctx)
    ∧ (∀ err, wait rl.spec.timeout = some err →
      (Handle d rl wait ctx w).1 = "timeout"
      ∧ (Handle d rl wait ctx w).2.1.statusCode = 429
      ∧ (∀ f, rl.fallback = some f →
          (Handle d rl wait ctx w).2.1 = (d.Fallback f ctx).SetStatusCode 429)
      ∧ (rl.fallback = none → (Handle d rl wait ctx w).2.1 = ctx.SetStatusCode 429))
    ∧ (Handle d rl wait ctx w).2.2
        = { w with ewmas := updateAt w.ewmas rl.rate1 (fun a => a.Update 1) }
    ∧ (∀ a, w.ewmas[rl.rate1]? = some a →
        (Handle d rl wait ctx w).2.2.ewmas[rl.rate1]? = some ⟨a.uncounted + 1, a.ticked⟩) := by
  have hworld : (Handle d rl wait ctx w).2.2
      = { w with ewmas := updateAt w.ewmas rl.rate1 (fun a => a.Update 1) } := by
    unfold Handle
    cases wait rl.spec.timeout <;> rfl
  refine ⟨?_, ?_, hworld, ?_⟩
  · intro hg
    simp [Handle, hg]
  · intro err he
    refine ⟨?_, ?_, ?_, ?_⟩
    · simp [Handle, he, resultTimeout]
    · simp [Handle, he, HTTPContext.SetStatusCode, StatusTooManyRequests]
    · intro f hf
      simp [Handle, he, hf, StatusTooManyRequests]
    · intro hf
      simp [Handle, he, hf, StatusTooManyRequests]
  · intro a ha
    rw [hworld]
    simp [getElem?_updateAt_self, ha, EWMA.Update]

/-- Witness for C3: a wait that times out on a limiter with the fallback
`busy`: the fallback writes its body, the status is 429, the result `timeout`,
and the accumulator counts one more event. -/
theorem Handle_by_wait_witness :
    (Handle sampleDeps (New sampleDeps sampleSpec none World.empty).1
        (fun _ => some "context deadline exceeded") sampleRequest
        (New sampleDeps sampleSpec none World.empty).2).1 = "timeout"
    ∧ (Handle sampleDeps (New sampleDeps sampleSpec none World.empty).1
        (fun _ => some "context deadline exceeded") sampleRequest
        (New sampleDeps sampleSpec none World.empty).2).2.1
        = { sampleRequest with body := "busy", statusCode := 429 }
    ∧ (Handle sampleDeps (New sampleDeps sampleSpec none World.empty).1
        (fun _ => some "context deadline exceeded") sampleRequest
        (New sampleDeps sampleSpec none World.empty).2).2.2.ewmas[0]? = some ⟨1, []⟩ := by
  have h := Handle_by_wait sampleDeps (New sampleDeps sampleSpec none World.empty).1
    (fun _ => some "context deadline exceeded") sampleRequest
    (New sampleDeps sampleSpec none World.empty).2
  have h1 := h.2.1 "context deadline exceeded" rfl
  exact ⟨h1.1, h1.2.2.1 "busy" rfl, h.2.2.2 NewEWMA1 rfl⟩

end ratelimiter
